import Mathlib

/-!
Shallow embedding of the Geospatial Region and Area-Weighting Engine of
`esmvaltool/preprocessor/_area.py`, together with proofs settling the
specification claims about it.

Modelling conventions:
* floating-point values (data, coordinates, bounds) are represented by `ℚ`;
  none of the claims depends on rounding behaviour;
* a numpy masked array is a flat (row-major) value list plus a mask list and a
  `shape` list of extents;
* exceptions raised by the Python code are `Except Err` results;
* iris library primitives used by the source (`Cube.intersection`,
  `Coord.guess_bounds`, `iris.analysis.cartography.area_weights`,
  `Cube.collapsed`, `Cube.extract`) are modelled from their documented
  behaviour, as noted at each definition;
* the in-place mutation performed by the source (assignment to `cube.data`,
  in-place `guess_bounds`) is made explicit: each engine operation returns a
  pair whose first component is the state of the caller-owned cube after the
  call and whose second component is the returned value.
-/

/-- The iris analysis aggregators selected by `get_iris_analysis_operation`. -/
inductive Op where
  | MEAN
  | MEDIAN
  | STD_DEV
  | VARIANCE
  | MIN
  | MAX
  deriving DecidableEq, Repr

/-- The exceptions the engine can raise.  `unsupportedOperator` is the
`ValueError` of `get_iris_analysis_operation` (it carries the offending
lowercased name and the list of accepted names, exactly the arguments the
source passes to `ValueError`); `coordinateMultiDim` is
`iris.exceptions.CoordinateMultiDimError`; `shapeMismatch` is the `ValueError`
of the final weight-shape check in `average_region` and carries both shapes;
`invalidRegions` and `unknownRegions` are the two `ValueError`s of
`extract_named_regions`; `coordinateNotFound` models
`iris.exceptions.CoordinateNotFoundError`; `cannotGuessBounds` models the
`ValueError` raised by iris `guess_bounds` on a coordinate with fewer than two
points. -/
inductive Err where
  | unsupportedOperator (op : String) (accepted : List String)
  | coordinateMultiDim
  | shapeMismatch (cubeShape gridShape : List Nat)
  | invalidRegions
  | unknownRegions (invalid available : List String)
  | coordinateNotFound (name : String)
  | cannotGuessBounds
  deriving DecidableEq, Repr

deriving instance DecidableEq for Except

/-- The `operators` list of `get_iris_analysis_operation` (source order). -/
def operators : List String :=
  ["mean", "median", "stdev", "variance", "min", "minimum", "max", "maximum"]

/-- Python `str.lower()`, modelled characterwise over the underlying
character list (kept as an explicit map so that every use reduces in the
kernel). -/
def strLower (s : String) : String := ⟨s.data.map Char.toLower⟩

/-- Python `str.strip()`, modelled as removal of leading and trailing ASCII
spaces (the only whitespace the claims exercise). -/
def strTrim (s : String) : String :=
  ⟨((s.data.dropWhile (fun c => c = ' ')).reverse.dropWhile
      (fun c => c = ' ')).reverse⟩

/-- `get_iris_analysis_operation` from `_area.py`: lowercases its own copy of
the name, matches it against the accepted spellings and otherwise raises a
`ValueError` carrying the (lowercased) name and the accepted names. -/
def get_iris_analysis_operation (operator : String) : Except Err Op :=
  let op := strLower operator
  if op = "mean" then .ok .MEAN
  else if op = "median" then .ok .MEDIAN
  else if op = "stdev" then .ok .STD_DEV
  else if op = "variance" then .ok .VARIANCE
  else if op ∈ (["minimum", "min"] : List String) then .ok .MIN
  else if op ∈ (["maximum", "max"] : List String) then .ok .MAX
  else .error (.unsupportedOperator op operators)

/-- An exact value of a collapse: rationals stay rationals, the standard
deviation of a rational sample is carried as the square root of its radicand
so that every definition stays executable and decidable. -/
inductive RVal where
  | rat (q : ℚ)
  | sqrtOf (q : ℚ)
  deriving DecidableEq, Repr

/-- A plain n-dimensional numpy array: extents plus row-major data. -/
structure NDArr where
  shape : List Nat
  data : List ℚ
  deriving DecidableEq, Repr

/-- Product of a list of extents. -/
def listProd (l : List Nat) : Nat := l.foldr (· * ·) 1

/-- All multi-indices of a shape, in row-major order. -/
def allIdx : List Nat → List (List Nat)
  | [] => [[]]
  | n :: rest => ((List.range n).map (fun i => (allIdx rest).map (fun t => i :: t))).flatten

/-- Row-major flat position of a multi-index. -/
def flattenIdx (shape idx : List Nat) : Nat :=
  (shape.zip idx).foldl (fun acc p => acc * p.1 + p.2) 0

/-- The in-memory cube (the Field of the spec).  `latND` is the number of
dimensions of the latitude/longitude coordinates: `1` for a regular grid
(points in `latPts`/`lonPts`), `2` for an irregular grid (points in
`lats2`/`lons2`, flattened row-major, indexed like `data`).  For the
irregular operations the data is indexed over the two spatial dimensions,
matching the coordinate arrays. -/
structure Cube where
  dims : List String
  shape : List Nat
  data : List ℚ
  mask : List Bool
  latND : Nat
  latPts : List ℚ
  lonPts : List ℚ
  lats2 : List ℚ
  lons2 : List ℚ
  latBounds : Option (List (ℚ × ℚ))
  lonBounds : Option (List (ℚ × ℚ))
  regionPts : List String
  deriving DecidableEq, Repr

/-- Insertion of one value into a sorted list (ascending). -/
def insSorted (x : ℚ) : List ℚ → List ℚ
  | [] => [x]
  | y :: ys => if x ≤ y then x :: y :: ys else y :: insSorted x ys

/-- Insertion sort, used to model the numpy median. -/
def sortQ (l : List ℚ) : List ℚ := l.foldr insSorted []

/-- The unweighted iris aggregators on the list of unmasked values of a cell
plane (`np.ma` semantics: masked values are excluded).  `MEDIAN` averages the
two middle values for an even count; `VARIANCE` and `STD_DEV` use `ddof = 1`
as iris does (for a single value the `0 / 0` is read as `0` in `ℚ`, where
numpy would produce a masked invalid value; no claim depends on that corner).
-/
def opApply (op : Op) (vals : List ℚ) : RVal :=
  match op with
  | .MEAN => .rat (vals.sum / vals.length)
  | .MEDIAN =>
      let s := sortQ vals
      let n := s.length
      if n % 2 = 1 then .rat (s.getD (n / 2) 0)
      else .rat ((s.getD (n / 2 - 1) 0 + s.getD (n / 2) 0) / 2)
  | .VARIANCE =>
      let n := vals.length
      let m := vals.sum / n
      .rat ((vals.map (fun x => (x - m) ^ 2)).sum / (n - 1))
  | .STD_DEV =>
      let n := vals.length
      let m := vals.sum / n
      .sqrtOf ((vals.map (fun x => (x - m) ^ 2)).sum / (n - 1))
  | .MIN => .rat (vals.foldr min (vals.headD 0))
  | .MAX => .rat (vals.foldr max (vals.headD 0))

/-- Numerator of the area-weighted mean of one cell plane
(`np.ma.average` semantics, as used by a weighted `iris.analysis.MEAN`):
every entry contributes `weight * value`, a masked entry contributes `0`.
A plane entry is `(value, masked, weight)`. -/
def wSumNum (plane : List (ℚ × Bool × ℚ)) : ℚ :=
  (plane.map (fun t => if t.2.1 then 0 else t.2.2 * t.1)).sum

/-- Denominator of the area-weighted mean of one cell plane: every entry
contributes its weight, a masked entry contributes `0`. -/
def wSumDen (plane : List (ℚ × Bool × ℚ)) : ℚ :=
  (plane.map (fun t => if t.2.1 then 0 else t.2.2)).sum

/-- Value of one output cell of a collapse.  With weights (only the `MEAN`
aggregator is ever handed weights by the source) this is the masked weighted
mean; without weights it is the unweighted aggregator on the unmasked values.
-/
def cellVal (op : Op) (weighted : Bool) (plane : List (ℚ × Bool × ℚ)) : RVal :=
  if weighted then .rat (wSumNum plane / wSumDen plane)
  else opApply op ((plane.filter (fun t => !t.2.1)).map (fun t => t.1))

/-- The result of a collapse: the remaining dims and shape, one value and one
mask entry per remaining cell (a cell is masked when its whole plane was
masked, as iris does). -/
structure CollapsedField where
  dims : List String
  shape : List Nat
  data : List RVal
  mask : List Bool
  deriving DecidableEq, Repr

/-- Keep the entries of `l` whose flag (from `flags`) equals `b`. -/
def selectBy {α : Type} (flags : List Bool) (b : Bool) (l : List α) : List α :=
  ((flags.zip l).filter (fun p => p.1 = b)).map (fun p => p.2)

/-- Rebuild a full multi-index from its kept part `k` and its collapsed part
`c`, following the collapse flags of the axes. -/
def mergeIdx : List Bool → List Nat → List Nat → List Nat
  | [], _, _ => []
  | false :: rest, x :: xs, cs => x :: mergeIdx rest xs cs
  | false :: rest, [], cs => 0 :: mergeIdx rest [] cs
  | true :: rest, xs, c :: cs => c :: mergeIdx rest xs cs
  | true :: rest, xs, [] => 0 :: mergeIdx rest xs []

/-- `Cube.collapsed` from iris, on the projections of a cube: collapse the
axes named in `coords`, applying the aggregator to each plane of cells over
the collapsed axes, optionally weighted by an array of the same layout as the
data.  The value/mask/weight of a full multi-index are looked up in the
row-major flat lists. -/
def collapsed (dims : List String) (shape : List Nat) (data : List ℚ)
    (mask : List Bool) (coords : List String) (op : Op) (w : Option NDArr) :
    CollapsedField :=
  let flags : List Bool := dims.map (fun d => decide (d ∈ coords))
  let keptShape := selectBy flags false shape
  let collShape := selectBy flags true shape
  let planeOf : List Nat → List (ℚ × Bool × ℚ) := fun k =>
    (allIdx collShape).map (fun c =>
      let fi := flattenIdx shape (mergeIdx flags k c)
      (data.getD fi 0, mask.getD fi false,
        match w with
        | some g => g.data.getD fi 0
        | none => 1))
  { dims := selectBy flags false dims
    shape := keptShape
    data := (allIdx keptShape).map (fun k => cellVal op w.isSome (planeOf k))
    mask := (allIdx keptShape).map (fun k =>
      (planeOf k).all (fun t => t.2.1)) }

/-- Subset a cube along the axis named `axis`, keeping the positions where
`keep` holds.  Data and mask are filtered cell by cell in row-major order;
points of the filtered coordinate are updated by the caller.  This is the
common slicing kernel behind the iris `intersection` and `extract`
primitives. -/
def filterAxis (cube : Cube) (axis : String) (keep : Nat → Bool) : Cube :=
  let ax := cube.dims.indexOf axis
  let n := cube.shape.getD ax 0
  let idxs := (allIdx cube.shape).filter (fun ix => keep (ix.getD ax 0))
  { cube with
    shape := cube.shape.set ax ((List.range n).filter keep).length
    data := idxs.map (fun ix => cube.data.getD (flattenIdx cube.shape ix) 0)
    mask := idxs.map (fun ix => cube.mask.getD (flattenIdx cube.shape ix) false) }

/-- Wrap a longitude into the half-open cyclic window starting at `a`, as the
iris `intersection` primitive presents points: the result is
`a + 360 * fract ((p - a) / 360)`, hence lies in `[a, a + 360)`. -/
def wrapLon (a p : ℚ) : ℚ := a + 360 * Int.fract ((p - a) / 360)

/-- `Cube.intersection(longitude=(a, b))` from iris on a regular grid: every
longitude point is wrapped into the window starting at `a` and the cells whose
wrapped point does not exceed `b` are kept, with the wrapped value as the new
point.  (Selection is by points; the bounds-overlap refinement of iris is not
claimed by the spec and is not modelled.) -/
def intersectLon (cube : Cube) (a b : ℚ) : Cube :=
  let wrapped := cube.lonPts.map (wrapLon a)
  let keep : Nat → Bool := fun i => decide (wrapped.getD i 0 ≤ b)
  let c := filterAxis cube "longitude" keep
  { c with lonPts :=
      ((List.range cube.lonPts.length).filter keep).map (fun i => wrapped.getD i 0) }

/-- `Cube.intersection(latitude=(a, b))` from iris on a regular grid: keep the
cells whose latitude point lies in the closed window. -/
def intersectLat (cube : Cube) (a b : ℚ) : Cube :=
  let keep : Nat → Bool := fun i =>
    decide (a ≤ cube.latPts.getD i 0) && decide (cube.latPts.getD i 0 ≤ b)
  let c := filterAxis cube "latitude" keep
  { c with latPts := cube.latPts.filter (fun p => decide (a ≤ p) && decide (p ≤ b)) }

/-- The longitude contribution of one cell to the irregular-grid exclusion
mask of `extract_region`: the source tests the cell longitude against both
box bounds with a greater-than comparison
(`lons > start_longitude`, `lons > end_longitude`). -/
def lonMaskTest (startLon endLon lon : ℚ) : Bool :=
  decide (lon > startLon) || decide (lon > endLon)

/-- The irregular-grid exclusion mask of `extract_region`: the pre-existing
mask of the data, OR-ed cell by cell with the four per-cell tests of the
source (`lats < start_latitude`, `lats > end_latitude`,
`lons > start_longitude`, `lons > end_longitude`). -/
def irregularMask (cube : Cube) (startLon endLon startLat endLat : ℚ) :
    List Bool :=
  (List.range cube.data.length).map (fun i =>
    cube.mask.getD i false
      || decide (cube.lats2.getD i 0 < startLat)
      || decide (cube.lats2.getD i 0 > endLat)
      || lonMaskTest startLon endLon (cube.lons2.getD i 0))

/-- `extract_region` from `_area.py`.  The first component of the result is
the caller-owned cube after the call, the second the returned cube.  On a
regular grid (1-D latitude) the source intersects with the requested window
and then re-intersects with `(0, 360)`, returning a new cube; on an irregular
grid it assigns the OR-ed mask back to `cube.data`, mutating and returning
the input cube itself. -/
def extract_region (cube : Cube)
    (start_longitude end_longitude start_latitude end_latitude : ℚ) :
    Cube × Cube :=
  if cube.latND = 1 then
    let r1 := intersectLon (intersectLat cube start_latitude end_latitude)
      start_longitude end_longitude
    let r2 := intersectLon r1 0 360
    (cube, r2)
  else
    let m := irregularMask cube start_longitude end_longitude start_latitude
      end_latitude
    let c := { cube with mask := m }
    (c, c)

/-- `zonal_means` from `_area.py`: resolve the operator, then collapse the
named coordinate, unweighted.  The input cube is returned unchanged as the
post-call state. -/
def zonal_means (cube : Cube) (coordinate : String) (mean_type : String) :
    Cube × Except Err CollapsedField :=
  match get_iris_analysis_operation mean_type with
  | .error e => (cube, .error e)
  | .ok op =>
      (cube, .ok (collapsed cube.dims cube.shape cube.data cube.mask
        [coordinate] op none))

/-- Midpoint cell bounds guessed from 1-D points, extrapolated at the domain
edges, as iris `Coord.guess_bounds` derives them. -/
def guessPairs (pts : List ℚ) : List (ℚ × ℚ) :=
  (List.range pts.length).map (fun i =>
    let p := pts.getD i 0
    let lower :=
      if i = 0 then p - (pts.getD 1 0 - p) / 2 else (pts.getD (i - 1) 0 + p) / 2
    let upper :=
      if i = pts.length - 1 then p + (p - pts.getD (i - 1) 0) / 2
      else (p + pts.getD (i + 1) 0) / 2
    (lower, upper))

/-- One step of `_guess_bounds`: `cube.coord(name).guess_bounds()` guarded by
`has_bounds()`.  A coordinate that already has bounds is left alone; guessing
on a 2-D coordinate raises `CoordinateMultiDimError` and on a coordinate with
fewer than two points raises a `ValueError`, as iris does; a name the cube
does not carry raises `CoordinateNotFoundError`. -/
def guessOne (cube : Cube) (name : String) : Cube × Option Err :=
  if name = "latitude" then
    if cube.latBounds.isSome then (cube, none)
    else if cube.latND ≠ 1 then (cube, some .coordinateMultiDim)
    else if cube.latPts.length < 2 then (cube, some .cannotGuessBounds)
    else ({ cube with latBounds := some (guessPairs cube.latPts) }, none)
  else if name = "longitude" then
    if cube.lonBounds.isSome then (cube, none)
    else if cube.latND ≠ 1 then (cube, some .coordinateMultiDim)
    else if cube.lonPts.length < 2 then (cube, some .cannotGuessBounds)
    else ({ cube with lonBounds := some (guessPairs cube.lonPts) }, none)
  else (cube, some (.coordinateNotFound name))

/-- `_guess_bounds` from `_area.py`: walk the coordinate names in order,
guessing bounds in place where they are missing; the first failure aborts the
walk, keeping the mutations already made. -/
def guess_bounds_walk (cube : Cube) (coords : List String) : Cube × Option Err :=
  coords.foldl
    (fun acc name =>
      match acc.2 with
      | some _ => acc
      | none => guessOne acc.1 name)
    (cube, none)

/-- Area of one grid cell from its latitude and longitude bound pairs.
`iris.analysis.cartography.area_weights` computes
`r ^ 2 * (sin lat_upper - sin lat_lower) * (lon_upper - lon_lower)` (radians);
the sine is not a rational operation and no claim depends on the numeric
value of a weight computed from bounds, so the embedding uses the bound
differences directly. -/
def cellAreaQ (latB lonB : ℚ × ℚ) : ℚ := (latB.2 - latB.1) * (lonB.2 - lonB.1)

/-- `iris.analysis.cartography.area_weights`: raises
`CoordinateMultiDimError` on a multidimensional latitude/longitude, requires
bounds on both coordinates, and otherwise returns one weight per cell of the
cube, broadcast across the non-spatial dimensions. -/
def area_weights (cube : Cube) : Except Err NDArr :=
  if cube.latND ≠ 1 then .error .coordinateMultiDim
  else
    match cube.latBounds, cube.lonBounds with
    | some lb, some lob =>
        let la := cube.dims.indexOf "latitude"
        let lo := cube.dims.indexOf "longitude"
        .ok { shape := cube.shape
              data := (allIdx cube.shape).map (fun ix =>
                cellAreaQ (lb.getD (ix.getD la 0) (0, 0))
                  (lob.getD (ix.getD lo 0) (0, 0))) }
    | _, _ => .error .cannotGuessBounds

/-- Shape of `np.tile(a, reps)`: the shorter list is padded on the left with
ones and the extents are multiplied elementwise. -/
def tileShape (aShape reps : List Nat) : List Nat :=
  let d := max aShape.length reps.length
  (List.zip (List.replicate (d - aShape.length) 1 ++ aShape)
    (List.replicate (d - reps.length) 1 ++ reps)).map (fun p => p.1 * p.2)

/-- `np.tile(a, reps)` for the repetition lists `average_region` uses (new
leading axes, factor one on every original axis): the data block is repeated
`listProd reps` times in front. -/
def tileLead (a : NDArr) (reps : List Nat) : NDArr :=
  { shape := tileShape a.shape reps
    data := (List.replicate (listProd reps) a.data).flatten }

/-- The rank-dispatch of `average_region` on an externally supplied per-cell
area array: a 2-D area is tiled to a 4-D or 3-D cube shape, a 3-D area to a
4-D cube shape; every other rank combination leaves the array untouched. -/
def broadcastGridAreas (cubeShape : List Nat) (a : NDArr) : NDArr :=
  if cubeShape.length = 4 ∧ a.shape.length = 2 then
    tileLead a [cubeShape.getD 0 1, cubeShape.getD 1 1, 1, 1]
  else if cubeShape.length = 4 ∧ a.shape.length = 3 then
    tileLead a [cubeShape.getD 0 1, 1, 1, 1]
  else if cubeShape.length = 3 ∧ a.shape.length = 2 then
    tileLead a [cubeShape.getD 0 1, 1, 1]
  else a

/-- The `fx_files` loop of `average_region`: entries whose value is `None`
are skipped, every other entry is loaded and broadcast, later entries
overwrite earlier ones.  An entry is the already-loaded area array standing
for the file named in the dictionary. -/
def processFx (cubeShape : List Nat)
    (fx_files : Option (List (String × Option NDArr))) : Option NDArr :=
  match fx_files with
  | none => none
  | some l =>
      l.foldl
        (fun acc p =>
          match p.2 with
          | none => acc
          | some a => some (broadcastGridAreas cubeShape a))
        none

/-- Python truthiness of the `fx_files` argument: `None` and the empty
dictionary are falsy. -/
def fxFalsy (fx_files : Option (List (String × Option NDArr))) : Bool :=
  match fx_files with
  | none => true
  | some [] => true
  | some (_ :: _) => false

/-- The tail of `average_region` once a weight array is in hand: the shape
check (`ValueError` naming both shapes), the operator resolution, and the
collapse, weighted exactly when the original operator string is a member of
the literal list `["mean"]`. -/
def average_region_finish (cube : Cube) (coord1 coord2 operator : String)
    (g : NDArr) : Cube × Except Err CollapsedField :=
  if cube.shape ≠ g.shape then
    (cube, .error (.shapeMismatch cube.shape g.shape))
  else
    match get_iris_analysis_operation operator with
    | .error e => (cube, .error e)
    | .ok op =>
        if operator ∈ (["mean"] : List String) then
          (cube, .ok (collapsed cube.dims cube.shape cube.data cube.mask
            [coord1, coord2] op (some g)))
        else
          (cube, .ok (collapsed cube.dims cube.shape cube.data cube.mask
            [coord1, coord2] op none))

/-- `average_region` from `_area.py`.  The first component is the caller's
cube after the call (bounds guessing mutates it in place), the second the
result.  Control flow follows the source: load and broadcast the `fx_files`
entries; raise `CoordinateMultiDimError` when `fx_files` is falsy and the
latitude coordinate is 2-D; when no area was found, guess bounds in place and
compute weights from them; check the weight shape; resolve the operator;
collapse the two named coordinates, with weights only on the literal operator
string `"mean"`. -/
def average_region (cube : Cube) (coord1 coord2 : String)
    (operator : String) (fx_files : Option (List (String × Option NDArr))) :
    Cube × Except Err CollapsedField :=
  if fxFalsy fx_files ∧ cube.latND = 2 then (cube, .error .coordinateMultiDim)
  else
    match processFx cube.shape fx_files with
    | some g => average_region_finish cube coord1 coord2 operator g
    | none =>
        match guess_bounds_walk cube [coord1, coord2] with
        | (cube2, some e) => (cube2, .error e)
        | (cube2, none) =>
            match area_weights cube2 with
            | .error e => (cube2, .error e)
            | .ok g => average_region_finish cube2 coord1 coord2 operator g

/-- The argument of `extract_named_regions`: a single string, a
list/tuple/set of strings, or anything else (which the source rejects). -/
inductive RegionsArg where
  | str (s : String)
  | coll (l : List String)
  | other
  deriving DecidableEq, Repr

/-- The normalization step of `extract_named_regions`: a single string
becomes a one-element list, a collection is taken as is, anything else
raises a `ValueError`. -/
def normalizeRegions : RegionsArg → Except Err (List String)
  | .str s => .ok [s]
  | .coll l => .ok l
  | .other => .error .invalidRegions

/-- `extract_named_regions` from `_area.py`: normalize the request, compare
it with the set of labels on the `region` coordinate, raise a `ValueError`
naming the offending labels and the available set when a requested label is
absent, and otherwise extract the positions whose label is requested.  The
iris `Cube.extract` primitive returns `None` when no position matches,
otherwise a new cube subset in original order.  The input cube is never
mutated. -/
def extract_named_regions (cube : Cube) (regions : RegionsArg) :
    Cube × Except Err (Option Cube) :=
  match normalizeRegions regions with
  | .error e => (cube, .error e)
  | .ok regs =>
      let available := cube.regionPts
      let invalid := (regs.filter (fun r => decide (r ∉ available))).dedup
      if invalid ≠ [] then
        (cube, .error (.unknownRegions invalid available.dedup))
      else
        let matched := cube.regionPts.filter (fun r => decide (r ∈ regs))
        if matched = [] then (cube, .ok none)
        else
          let keep : Nat → Bool := fun i =>
            decide (cube.regionPts.getD i "" ∈ regs)
          let c := filterAxis cube "region" keep
          (cube, .ok (some { c with regionPts := matched }))

/-- A small regular-grid cube used to instantiate theorems. -/
def exampleRegularCube : Cube :=
  { dims := ["latitude", "longitude"], shape := [2, 3]
    data := [1, 2, 3, 4, 5, 6]
    mask := [false, false, false, false, false, false]
    latND := 1, latPts := [-5, 5], lonPts := [-10, 0, 350]
    lats2 := [], lons2 := []
    latBounds := none, lonBounds := none, regionPts := [] }

/-- A small irregular-grid (2-D coordinates) cube used to instantiate
theorems. -/
def exampleIrregularCube : Cube :=
  { dims := ["latitude", "longitude"], shape := [2, 2]
    data := [1, 2, 3, 4], mask := [false, false, false, false]
    latND := 2, latPts := [], lonPts := []
    lats2 := [10, 20, 30, 40], lons2 := [5, 15, 25, 35]
    latBounds := none, lonBounds := none, regionPts := [] }

/-- A per-cell area array matching `exampleIrregularCube`. -/
def exampleArea : NDArr := { shape := [2, 2], data := [2, 2, 2, 2] }

/-- An `fx_files` dictionary supplying `exampleArea`. -/
def exampleFx : Option (List (String × Option NDArr)) :=
  some [("areacella", some exampleArea)]

/-- A cube carrying a `region` coordinate, used to instantiate theorems. -/
def exampleRegionCube : Cube :=
  { dims := ["region"], shape := [3]
    data := [1, 2, 3], mask := [false, false, false]
    latND := 1, latPts := [], lonPts := []
    lats2 := [], lons2 := [], latBounds := none, lonBounds := none
    regionPts := ["Amazon", "Congo", "Nile"] }

/-- C6 counterexample: the claim requires acceptance after trimming, but the
source only lowercases and never trims, so the padded spelling of the mean
operator is rejected even though it matches an accepted name after trimming.
-/
theorem resolver_trim_cex :
    get_iris_analysis_operation " mean" =
      .error (.unsupportedOperator " mean" operators) ∧
    (strLower (strTrim " mean") = "mean" ∧ "mean" ∈ operators) := by
  refine ⟨by decide, by decide, by decide⟩

/-- C6 (amended): the Operator Resolver returns a reduction function iff the
input matches one of the accepted names case-insensitively (no trimming is
performed); otherwise it raises a `ValueError` carrying the lowercased name
and the list of accepted names. -/
theorem resolver_case_insensitive_no_trim (s : String) :
    (strLower s ∈ operators → ∃ op, get_iris_analysis_operation s = .ok op) ∧
    (strLower s ∉ operators →
      get_iris_analysis_operation s =
        .error (.unsupportedOperator (strLower s) operators)) := by
  constructor
  · intro h
    simp only [operators, List.mem_cons, List.not_mem_nil, or_false] at h
    rcases h with h | h | h | h | h | h | h | h
    · exact ⟨.MEAN, by simp [get_iris_analysis_operation, h]⟩
    · exact ⟨.MEDIAN, by simp [get_iris_analysis_operation, h]⟩
    · exact ⟨.STD_DEV, by simp [get_iris_analysis_operation, h]⟩
    · exact ⟨.VARIANCE, by simp [get_iris_analysis_operation, h]⟩
    · exact ⟨.MIN, by simp [get_iris_analysis_operation, h]⟩
    · exact ⟨.MIN, by simp [get_iris_analysis_operation, h]⟩
    · exact ⟨.MAX, by simp [get_iris_analysis_operation, h]⟩
    · exact ⟨.MAX, by simp [get_iris_analysis_operation, h]⟩
  · intro h
    simp only [operators, List.mem_cons, List.not_mem_nil, or_false, not_or] at h
    obtain ⟨h1, h2, h3, h4, h5, h6, h7, h8⟩ := h
    simp [get_iris_analysis_operation, h1, h2, h3, h4, h5, h6, h7, h8]

/-- C6 witness: a non-lowercase accepted spelling resolves, an unknown name
is rejected with the accepted list. -/
theorem resolver_case_insensitive_no_trim_w :
    (∃ op, get_iris_analysis_operation "MEAN" = .ok op) ∧
    get_iris_analysis_operation "sum" =
      .error (.unsupportedOperator (strLower "sum") operators) :=
  ⟨(resolver_case_insensitive_no_trim "MEAN").1 (by decide),
    (resolver_case_insensitive_no_trim "sum").2 (by decide)⟩

/-- Agreement of two cubes on everything except the coordinate bounds. -/
def sameCore (a b : Cube) : Prop :=
  a.dims = b.dims ∧ a.shape = b.shape ∧ a.data = b.data ∧ a.mask = b.mask ∧
  a.latND = b.latND ∧ a.latPts = b.latPts ∧ a.lonPts = b.lonPts ∧
  a.lats2 = b.lats2 ∧ a.lons2 = b.lons2 ∧ a.regionPts = b.regionPts

instance (a b : Cube) : Decidable (sameCore a b) := by
  unfold sameCore; infer_instance

lemma sameCore_refl (a : Cube) : sameCore a a := by
  unfold sameCore; tauto

lemma sameCore_trans {a b c : Cube} (h1 : sameCore a b) (h2 : sameCore b c) :
    sameCore a c := by
  unfold sameCore at *
  obtain ⟨a1, a2, a3, a4, a5, a6, a7, a8, a9, a10⟩ := h1
  obtain ⟨b1, b2, b3, b4, b5, b6, b7, b8, b9, b10⟩ := h2
  exact ⟨a1.trans b1, a2.trans b2, a3.trans b3, a4.trans b4, a5.trans b5,
    a6.trans b6, a7.trans b7, a8.trans b8, a9.trans b9, a10.trans b10⟩

lemma guessOne_sameCore (c : Cube) (n : String) :
    sameCore (guessOne c n).1 c := by
  unfold guessOne sameCore
  repeat' split
  all_goals simp

lemma guess_fold_sameCore (l : List String) :
    ∀ acc : Cube × Option Err,
      sameCore
        ((l.foldl
          (fun acc name =>
            match acc.2 with
            | some _ => acc
            | none => guessOne acc.1 name) acc).1) acc.1 := by
  induction l with
  | nil => intro acc; exact sameCore_refl _
  | cons n ns ih =>
      intro acc
      rcases h : acc.2 with _ | e
      · refine sameCore_trans (ih _) ?_
        simp [h]
        exact guessOne_sameCore _ _
      · refine sameCore_trans (ih _) ?_
        simp [h]
        exact sameCore_refl _

lemma guess_bounds_walk_sameCore (c : Cube) (l : List String) :
    sameCore (guess_bounds_walk c l).1 c :=
  guess_fold_sameCore l (c, none)

lemma average_region_finish_fst (cube : Cube) (c1 c2 opn : String)
    (g : NDArr) : (average_region_finish cube c1 c2 opn g).1 = cube := by
  unfold average_region_finish
  repeat' split
  all_goals rfl

lemma average_region_finish_ok (cube : Cube) (c1 c2 opn : String) (g : NDArr)
    (post : Cube) (r : CollapsedField)
    (h : average_region_finish cube c1 c2 opn g = (post, .ok r)) :
    post = cube ∧ cube.shape = g.shape ∧
    ∃ op, get_iris_analysis_operation opn = .ok op ∧
      ((opn = "mean" ∧
          r = collapsed cube.dims cube.shape cube.data cube.mask [c1, c2] op
            (some g)) ∨
        (opn ≠ "mean" ∧
          r = collapsed cube.dims cube.shape cube.data cube.mask [c1, c2] op
            none)) := by
  unfold average_region_finish at h
  by_cases hs : cube.shape ≠ g.shape
  · simp [hs] at h
  · push_neg at hs
    rcases hop : get_iris_analysis_operation opn with e | op
    · simp only [if_neg (show ¬cube.shape ≠ g.shape from by simp [hs]), hop] at h
      simp at h
    · by_cases hm : opn = "mean"
      · subst hm
        simp only [if_neg (show ¬cube.shape ≠ g.shape from by simp [hs]), hop,
          List.mem_singleton, if_pos, Prod.mk.injEq, Except.ok.injEq] at h
        exact ⟨h.1.symm, hs, op, rfl, Or.inl ⟨rfl, h.2.symm⟩⟩
      · simp only [if_neg (show ¬cube.shape ≠ g.shape from by simp [hs]), hop,
          List.mem_singleton, if_neg hm, Prod.mk.injEq, Except.ok.injEq] at h
        exact ⟨h.1.symm, hs, op, rfl, Or.inr ⟨hm, h.2.symm⟩⟩

lemma processFx_all_none {l : List (String × Option NDArr)} (s : List Nat)
    (h : ∀ p ∈ l, p.2 = none) :
    processFx s (some l) = none := by
  unfold processFx
  induction l with
  | nil => rfl
  | cons p ps ih =>
      have hp := h p (by simp)
      simp only [List.foldl_cons, hp]
      exact ih (fun q hq => h q (by simp [hq]))

lemma processFx_some_not_falsy {s : List Nat}
    {fx : Option (List (String × Option NDArr))} {g : NDArr}
    (h : processFx s fx = some g) : fxFalsy fx = false := by
  rcases fx with _ | l
  · simp [processFx] at h
  · rcases l with _ | ⟨p, ps⟩
    · simp [processFx] at h
    · rfl

lemma average_region_ok (cube : Cube) (c1 c2 opn : String)
    (fx : Option (List (String × Option NDArr))) (post : Cube)
    (r : CollapsedField)
    (h : average_region cube c1 c2 opn fx = (post, .ok r)) :
    sameCore post cube ∧
    ∃ op g, get_iris_analysis_operation opn = .ok op ∧
      ((opn = "mean" ∧
          r = collapsed cube.dims cube.shape cube.data cube.mask [c1, c2] op
            (some g)) ∨
        (opn ≠ "mean" ∧
          r = collapsed cube.dims cube.shape cube.data cube.mask [c1, c2] op
            none)) := by
  unfold average_region at h
  by_cases hir : fxFalsy fx ∧ cube.latND = 2
  · simp [hir] at h
  · rw [if_neg hir] at h
    rcases hga : processFx cube.shape fx with _ | g
    · rw [hga] at h
      rcases hgb : guess_bounds_walk cube [c1, c2] with ⟨cube2, oe⟩
      rw [hgb] at h
      rcases oe with _ | e
      all_goals dsimp only [] at h
      · rcases haw : area_weights cube2 with e | g
        · rw [haw] at h; simp at h
        · rw [haw] at h
          have hc : sameCore cube2 cube := by
            have := guess_bounds_walk_sameCore cube [c1, c2]
            rw [hgb] at this
            exact this
          obtain ⟨hpost, hshape, op, hop, hcase⟩ :=
            average_region_finish_ok _ c1 c2 opn g post r h
          obtain ⟨e1, e2, e3, e4, e5, e6, e7, e8, e9, e10⟩ := hc
          refine ⟨hpost ▸ ⟨e1, e2, e3, e4, e5, e6, e7, e8, e9, e10⟩, op, g,
            hop, ?_⟩
          rw [e1, e2, e3, e4] at hcase
          exact hcase
      · simp at h
    · rw [hga] at h
      obtain ⟨hpost, hshape, op, hop, hcase⟩ :=
        average_region_finish_ok _ c1 c2 opn g post r h
      exact ⟨hpost ▸ sameCore_refl cube, op, g, hop, hcase⟩

lemma wSumNum_eq_filter (plane : List (ℚ × Bool × ℚ)) :
    wSumNum plane =
      ((plane.filter (fun t => !t.2.1)).map (fun t => t.2.2 * t.1)).sum := by
  induction plane with
  | nil => rfl
  | cons t ts ih =>
      rcases t with ⟨x, m, w⟩
      cases m <;> simp [wSumNum, List.filter_cons, ih] <;>
        simp [wSumNum] at ih <;> simp [ih]

lemma wSumDen_eq_filter (plane : List (ℚ × Bool × ℚ)) :
    wSumDen plane =
      ((plane.filter (fun t => !t.2.1)).map (fun t => t.2.2)).sum := by
  induction plane with
  | nil => rfl
  | cons t ts ih =>
      rcases t with ⟨x, m, w⟩
      cases m <;> simp [wSumDen, List.filter_cons, ih] <;>
        simp [wSumDen] at ih <;> simp [ih]

/-- The collapse produced by `average_region` on the example irregular cube
with the example area weights and the `"mean"` operator. -/
def exampleMeanResult : CollapsedField :=
  collapsed exampleIrregularCube.dims exampleIrregularCube.shape
    exampleIrregularCube.data exampleIrregularCube.mask
    ["latitude", "longitude"] Op.MEAN (some exampleArea)

/-- The unweighted collapse of the example irregular cube under the `MEAN`
aggregator. -/
def exampleMeanUnweighted : CollapsedField :=
  collapsed exampleIrregularCube.dims exampleIrregularCube.shape
    exampleIrregularCube.data exampleIrregularCube.mask
    ["latitude", "longitude"] Op.MEAN none

/-- C1: for every field and every operator name accepted by the Operator
Resolver, a successful `average_region` collapses the two named axes with the
area weights exactly when the operator string is the literal `"mean"`, and
unweighted for every other accepted name; in the weighted mean, masked cells
are excluded from both the numerator and the denominator (the plane sums
equal the sums over the unmasked entries only). -/
theorem average_region_weights_only_mean (cube : Cube) (c1 c2 opn : String)
    (fx : Option (List (String × Option NDArr))) (post : Cube)
    (r : CollapsedField) (_accepted : strLower opn ∈ operators)
    (h : average_region cube c1 c2 opn fx = (post, .ok r)) :
    (∃ op g, get_iris_analysis_operation opn = .ok op ∧
      ((opn = "mean" ∧
          r = collapsed cube.dims cube.shape cube.data cube.mask [c1, c2] op
            (some g)) ∨
        (opn ≠ "mean" ∧
          r = collapsed cube.dims cube.shape cube.data cube.mask [c1, c2] op
            none))) ∧
    (∀ plane : List (ℚ × Bool × ℚ),
      wSumNum plane =
        ((plane.filter (fun t => !t.2.1)).map (fun t => t.2.2 * t.1)).sum ∧
      wSumDen plane =
        ((plane.filter (fun t => !t.2.1)).map (fun t => t.2.2)).sum) := by
  obtain ⟨-, op, g, hop, hcase⟩ := average_region_ok cube c1 c2 opn fx post r h
  exact ⟨⟨op, g, hop, hcase⟩,
    fun plane => ⟨wSumNum_eq_filter plane, wSumDen_eq_filter plane⟩⟩

/-- C1 witness: the weighted branch taken at the lowercase mean operator on a
concrete cube, and the masked-exclusion equations at a concrete plane. -/
theorem average_region_weights_only_mean_w :
    (∃ op g, get_iris_analysis_operation "mean" = .ok op ∧
      (("mean" : String) = "mean" ∧
          exampleMeanResult = collapsed exampleIrregularCube.dims
            exampleIrregularCube.shape exampleIrregularCube.data
            exampleIrregularCube.mask ["latitude", "longitude"] op (some g) ∨
        ("mean" : String) ≠ "mean" ∧
          exampleMeanResult = collapsed exampleIrregularCube.dims
            exampleIrregularCube.shape exampleIrregularCube.data
            exampleIrregularCube.mask ["latitude", "longitude"] op none)) ∧
    (wSumNum [((3 : ℚ), true, (5 : ℚ)), ((2 : ℚ), false, (4 : ℚ))] =
        (([((3 : ℚ), true, (5 : ℚ)), ((2 : ℚ), false, (4 : ℚ))].filter
          (fun t => !t.2.1)).map (fun t => t.2.2 * t.1)).sum ∧
      wSumDen [((3 : ℚ), true, (5 : ℚ)), ((2 : ℚ), false, (4 : ℚ))] =
        (([((3 : ℚ), true, (5 : ℚ)), ((2 : ℚ), false, (4 : ℚ))].filter
          (fun t => !t.2.1)).map (fun t => t.2.2)).sum) :=
  ⟨(average_region_weights_only_mean exampleIrregularCube "latitude"
      "longitude" "mean" exampleFx exampleIrregularCube exampleMeanResult
      (by decide) rfl).1,
    (average_region_weights_only_mean exampleIrregularCube "latitude"
      "longitude" "mean" exampleFx exampleIrregularCube exampleMeanResult
      (by decide) rfl).2
      [((3 : ℚ), true, (5 : ℚ)), ((2 : ℚ), false, (4 : ℚ))]⟩

/-- C10: when `average_region` is called with a non-lowercase spelling of the
mean operator, the resolver still returns the `MEAN` aggregator (it
lowercases its own copy), but the weighted branch compares the original
string with the literal `"mean"`, so the collapse is performed without the
area weights. -/
theorem average_region_uppercase_mean_unweighted (cube : Cube)
    (c1 c2 s : String) (fx : Option (List (String × Option NDArr)))
    (post : Cube) (r : CollapsedField) (hlow : strLower s = "mean")
    (hne : s ≠ "mean")
    (h : average_region cube c1 c2 s fx = (post, .ok r)) :
    get_iris_analysis_operation s = .ok .MEAN ∧
    r = collapsed cube.dims cube.shape cube.data cube.mask [c1, c2] .MEAN
      none := by
  have hres : get_iris_analysis_operation s = .ok .MEAN := by
    unfold get_iris_analysis_operation
    simp [hlow]
  obtain ⟨-, op, g, hop, hcase⟩ := average_region_ok cube c1 c2 s fx post r h
  have hopm : op = .MEAN := by
    rw [hres] at hop
    exact (Except.ok.injEq .. ▸ hop).symm
  rcases hcase with ⟨he, _⟩ | ⟨_, hr⟩
  · exact absurd he hne
  · exact ⟨hres, hopm ▸ hr⟩

/-- C10 witness: `"MEAN"` on a concrete cube with supplied area weights
resolves to the mean aggregator yet collapses unweighted. -/
theorem average_region_uppercase_mean_unweighted_w :
    get_iris_analysis_operation "MEAN" = .ok .MEAN ∧
    exampleMeanUnweighted = collapsed exampleIrregularCube.dims
      exampleIrregularCube.shape exampleIrregularCube.data
      exampleIrregularCube.mask ["latitude", "longitude"] .MEAN none :=
  average_region_uppercase_mean_unweighted exampleIrregularCube "latitude"
    "longitude" "MEAN" exampleFx exampleIrregularCube exampleMeanUnweighted
    (by decide) (by decide) rfl

/-- True when the `fx_files` argument supplies no area array at all: it is
`None`, empty, or every entry maps to `None`. -/
def noAreaEntries : Option (List (String × Option NDArr)) → Bool
  | none => true
  | some l => l.all (fun p => p.2.isNone)

lemma guessOne_irregular {c : Cube} {name : String} (h2 : c.latND = 2)
    (hn : name = "latitude" ∨ name = "longitude") :
    (guessOne c name).1 = c ∧
    ((guessOne c name).2 = none ∨
      (guessOne c name).2 = some .coordinateMultiDim) := by
  have hne : c.latND ≠ 1 := by rw [h2]; decide
  rcases hn with rfl | rfl
  · unfold guessOne
    by_cases hb : c.latBounds.isSome
    · simp [hb]
    · simp [hb, hne]
  · unfold guessOne
    by_cases hb : c.lonBounds.isSome
    · simp [hb]
    · simp [hb, hne]

lemma walk_two_irregular {cube : Cube} {c1 c2 : String} (h2 : cube.latND = 2)
    (hc1 : c1 = "latitude" ∨ c1 = "longitude")
    (hc2 : c2 = "latitude" ∨ c2 = "longitude") :
    (guess_bounds_walk cube [c1, c2]).1 = cube ∧
    ((guess_bounds_walk cube [c1, c2]).2 = none ∨
      (guess_bounds_walk cube [c1, c2]).2 = some .coordinateMultiDim) := by
  obtain ⟨ha1, ha2⟩ := guessOne_irregular h2 hc1
  obtain ⟨hb1, hb2⟩ := guessOne_irregular h2 hc2
  unfold guess_bounds_walk
  simp only [List.foldl_cons, List.foldl_nil]
  rcases ha2 with ha2 | ha2
  · have hstep : guessOne cube c1 = (cube, none) := Prod.ext ha1 ha2
    rw [hstep]
    rcases hb2 with hb2 | hb2
    · have hstep2 : guessOne cube c2 = (cube, none) := Prod.ext hb1 hb2
      simp [hstep2]
    · have hstep2 : guessOne cube c2 = (cube, some .coordinateMultiDim) :=
        Prod.ext hb1 hb2
      simp [hstep2]
  · have hstep : guessOne cube c1 = (cube, some .coordinateMultiDim) :=
      Prod.ext ha1 ha2
    rw [hstep]
    simp

/-- C5: on an irregular grid (2-D latitude/longitude coordinates),
area-weighted averaging over the spatial coordinates with no external
per-cell area supplied always fails with `CoordinateMultiDimError`: either
through the explicit guard of `average_region` (falsy `fx_files`) or, when a
dictionary of only `None` entries slips past the guard, through the modelled
iris bounds-guessing/area-weight primitives, which reject multidimensional
coordinates; a weight array is never computed from coordinate bounds. -/
theorem average_region_irregular_requires_area (cube : Cube)
    (c1 c2 opn : String) (fx : Option (List (String × Option NDArr)))
    (h2 : cube.latND = 2) (hc1 : c1 = "latitude" ∨ c1 = "longitude")
    (hc2 : c2 = "latitude" ∨ c2 = "longitude")
    (hfx : noAreaEntries fx = true) :
    (average_region cube c1 c2 opn fx).2 = .error .coordinateMultiDim := by
  rcases fx with _ | l
  · simp [average_region, fxFalsy, h2]
  · rcases l with _ | ⟨p, ps⟩
    · simp [average_region, fxFalsy, h2]
    · have hall : ∀ q ∈ p :: ps, q.2 = none := by
        intro q hq
        have := List.all_eq_true.mp hfx q hq
        simpa [Option.isNone_iff_eq_none] using this
      have hpf : processFx cube.shape (some (p :: ps)) = none :=
        processFx_all_none cube.shape hall
      obtain ⟨hw1, hw2⟩ := walk_two_irregular h2 hc1 hc2
      unfold average_region
      rw [if_neg (by simp [fxFalsy])]
      rw [hpf]
      rcases hgb : guess_bounds_walk cube [c1, c2] with ⟨cube2, oe⟩
      rw [hgb] at hw1 hw2
      simp only at hw1
      rcases hw2 with hw2 | hw2
      all_goals simp only at hw2
      · subst hw2
        dsimp only []
        have haw : area_weights cube2 = .error .coordinateMultiDim := by
          unfold area_weights
          rw [if_pos (by rw [hw1, h2]; decide)]
        rw [haw]
      · subst hw2
        dsimp only []

/-- C5 witness: the guard at an absent dictionary, and the all-`None`
dictionary case, both on a concrete irregular cube. -/
theorem average_region_irregular_requires_area_w :
    (average_region exampleIrregularCube "latitude" "longitude" "mean"
        none).2 = .error .coordinateMultiDim ∧
    (average_region exampleIrregularCube "latitude" "longitude" "mean"
        (some [("areacella", none)])).2 = .error .coordinateMultiDim :=
  ⟨average_region_irregular_requires_area exampleIrregularCube "latitude"
      "longitude" "mean" none (by decide) (Or.inl rfl) (Or.inr rfl)
      (by decide),
    average_region_irregular_requires_area exampleIrregularCube "latitude"
      "longitude" "mean" (some [("areacella", none)]) (by decide)
      (Or.inl rfl) (Or.inr rfl) (by decide)⟩

/-- A 3-D cube (time, latitude, longitude) used to exercise the external-area
broadcast. -/
def exampleCube3D : Cube :=
  { dims := ["time", "latitude", "longitude"], shape := [1, 1, 1]
    data := [5], mask := [false]
    latND := 1, latPts := [0], lonPts := [0]
    lats2 := [], lons2 := []
    latBounds := none, lonBounds := none, regionPts := [] }

/-- A 2-D area array whose extents do not match the spatial extents of
`exampleCube3D`. -/
def exampleBadArea : NDArr := { shape := [2, 2], data := [1, 2, 3, 4] }

/-- The array `exampleBadArea` broadcast against the shape of
`exampleCube3D`. -/
def exampleBadAreaB : NDArr := broadcastGridAreas [1, 1, 1] exampleBadArea

/-- C2 counterexample: for the supported rank combination 2-D area with 3-D
field, the broadcast weight array does not in general have the shape of the
field.  Here a (2, 2) area against a (1, 1, 1) field broadcasts to (1, 2, 2),
and `average_region` then raises the shape-mismatch `ValueError`, not an
error of a dedicated unsupported-broadcast kind. -/
theorem broadcast_shape_cex :
    (broadcastGridAreas [1, 1, 1] exampleBadArea).shape = [1, 2, 2] ∧
    ([1, 2, 2] : List Nat) ≠ [1, 1, 1] ∧
    (average_region exampleCube3D "latitude" "longitude" "mean"
        (some [("areacella", some exampleBadArea)])).2 =
      .error (.shapeMismatch [1, 1, 1] [1, 2, 2]) :=
  ⟨by decide, by decide, by decide⟩

/-- C2 (amended): for a supported rank combination whose area extents equal
the trailing extents of the field, the broadcast weight array has exactly the
field shape; a successful `average_region` never uses an external weight
array whose shape differs from the field shape; and any external weight array
whose broadcast shape differs from the field shape makes `average_region`
fail with the shape-mismatch `ValueError` naming both shapes (there is no
dedicated unsupported-broadcast error). -/
theorem broadcast_shape_contract :
    (∀ (lead aShape : List Nat) (d : List ℚ),
      ((lead.length = 2 ∧ aShape.length = 2) ∨
        (lead.length = 1 ∧ aShape.length = 3) ∨
        (lead.length = 1 ∧ aShape.length = 2)) →
      (broadcastGridAreas (lead ++ aShape)
          { shape := aShape, data := d }).shape = lead ++ aShape) ∧
    (∀ (cube : Cube) (c1 c2 opn : String)
      (fx : Option (List (String × Option NDArr))) (g : NDArr) (post : Cube)
      (r : CollapsedField),
      processFx cube.shape fx = some g →
      average_region cube c1 c2 opn fx = (post, .ok r) →
      g.shape = cube.shape) ∧
    (∀ (cube : Cube) (c1 c2 opn : String)
      (fx : Option (List (String × Option NDArr))) (g : NDArr),
      processFx cube.shape fx = some g → g.shape ≠ cube.shape →
      (average_region cube c1 c2 opn fx).2 =
        .error (.shapeMismatch cube.shape g.shape)) := by
  refine ⟨?_, ?_, ?_⟩
  · intro lead aShape d hcase
    rcases hcase with ⟨hl, ha⟩ | ⟨hl, ha⟩ | ⟨hl, ha⟩
    · obtain ⟨a, b, rfl⟩ := List.length_eq_two.mp hl
      obtain ⟨u, v, rfl⟩ := List.length_eq_two.mp ha
      simp [broadcastGridAreas, tileLead, tileShape]
    · obtain ⟨a, rfl⟩ := List.length_eq_one.mp hl
      obtain ⟨u, v, w, rfl⟩ := List.length_eq_three.mp ha
      simp [broadcastGridAreas, tileLead, tileShape]
    · obtain ⟨a, rfl⟩ := List.length_eq_one.mp hl
      obtain ⟨u, v, rfl⟩ := List.length_eq_two.mp ha
      simp [broadcastGridAreas, tileLead, tileShape]
  · intro cube c1 c2 opn fx g post r hpf h
    unfold average_region at h
    rw [if_neg (by simp [processFx_some_not_falsy hpf])] at h
    rw [hpf] at h
    dsimp only [] at h
    exact (average_region_finish_ok cube c1 c2 opn g post r h).2.1.symm
  · intro cube c1 c2 opn fx g hpf hne
    unfold average_region
    rw [if_neg (by simp [processFx_some_not_falsy hpf])]
    rw [hpf]
    dsimp only []
    unfold average_region_finish
    rw [if_pos (fun he => hne he.symm)]

/-- C2 (amended) witness: a matching (4, 2) area against a (3, 4, 2) field
broadcasts to the field shape; the successful weighted average on the example
cube used weights of the field shape; the mismatched broadcast raises the
shape-mismatch error. -/
theorem broadcast_shape_contract_w :
    (broadcastGridAreas ([3] ++ [4, 2])
        { shape := [4, 2], data := [] }).shape = [3] ++ [4, 2] ∧
    exampleArea.shape = exampleIrregularCube.shape ∧
    (average_region exampleCube3D "latitude" "longitude" "mean"
        (some [("areacella", some exampleBadArea)])).2 =
      .error (.shapeMismatch exampleCube3D.shape exampleBadAreaB.shape) :=
  ⟨broadcast_shape_contract.1 [3] [4, 2] [] (Or.inr (Or.inr ⟨rfl, rfl⟩)),
    broadcast_shape_contract.2.1 exampleIrregularCube "latitude" "longitude"
      "mean" exampleFx exampleArea exampleIrregularCube exampleMeanResult
      (by decide) rfl,
    broadcast_shape_contract.2.2 exampleCube3D "latitude" "longitude" "mean"
      (some [("areacella", some exampleBadArea)]) exampleBadAreaB (by decide)
      (by decide)⟩

/-- C3 counterexample: the irregular path of `extract_region` writes the
OR-ed mask back into the caller-owned cube, so the input observed after the
call differs from the input that was passed. -/
theorem extract_region_irregular_mutates_input :
    (extract_region exampleIrregularCube 0 30 15 100).1 ≠
      exampleIrregularCube := by decide

/-- C3 (amended): `extract_region` on a regular grid, `zonal_means` and
`extract_named_regions` leave the caller-owned field unchanged;
`extract_region` on an irregular grid mutates the input in place (the
returned field is the caller-owned field with the updated mask); and
`average_region` leaves everything in the caller-owned field unchanged
except possibly the coordinate bounds, which in-place bounds guessing may
add. -/
theorem engine_mutation_characterization (c : Cube) (a b d e : ℚ)
    (co mt : String) (rg : RegionsArg) (c1 c2 opn : String)
    (fx : Option (List (String × Option NDArr))) :
    (c.latND = 1 → (extract_region c a b d e).1 = c) ∧
    ((zonal_means c co mt).1 = c) ∧
    ((extract_named_regions c rg).1 = c) ∧
    (c.latND = 2 →
      (extract_region c a b d e).1 = (extract_region c a b d e).2) ∧
    sameCore ((average_region c c1 c2 opn fx).1) c := by
  refine ⟨?_, ?_, ?_, ?_, ?_⟩
  · intro h1
    simp [extract_region, h1]
  · unfold zonal_means
    rcases hm : get_iris_analysis_operation mt with e2 | op <;> rfl
  · unfold extract_named_regions
    rcases hn : normalizeRegions rg with e2 | regs
    · rfl
    · dsimp only []
      split
      · rfl
      · split <;> rfl
  · intro h2
    have hne : ¬(c.latND = 1) := by rw [h2]; decide
    simp [extract_region, hne]
  · unfold average_region
    by_cases hif : fxFalsy fx = true ∧ c.latND = 2
    · rw [if_pos hif]
      exact sameCore_refl c
    · rw [if_neg hif]
      rcases hga : processFx c.shape fx with _ | g
      · rcases hgb : guess_bounds_walk c [c1, c2] with ⟨cube2, oe⟩
        have hsc : sameCore cube2 c := by
          have := guess_bounds_walk_sameCore c [c1, c2]
          rw [hgb] at this
          exact this
        rcases oe with _ | e2
        · dsimp only []
          rcases haw : area_weights cube2 with e2 | g
          · dsimp only []
            exact hsc
          · dsimp only []
            rw [average_region_finish_fst]
            exact hsc
        · dsimp only []
          exact hsc
      · dsimp only []
        rw [average_region_finish_fst]
        exact sameCore_refl c

/-- C3 witness: the unchanged-input cases at concrete cubes, the in-place
update of the irregular path, and the bounds-only effect of
`average_region`. -/
theorem engine_mutation_characterization_w :
    (extract_region exampleRegularCube (-10) 10 (-5) 5).1 =
      exampleRegularCube ∧
    (zonal_means exampleRegularCube "latitude" "mean").1 =
      exampleRegularCube ∧
    (extract_named_regions exampleRegularCube (.coll [])).1 =
      exampleRegularCube ∧
    (extract_region exampleIrregularCube 0 30 15 100).1 =
      (extract_region exampleIrregularCube 0 30 15 100).2 ∧
    sameCore
      ((average_region exampleRegularCube "latitude" "longitude" "mean"
        none).1) exampleRegularCube :=
  ⟨(engine_mutation_characterization exampleRegularCube (-10) 10 (-5) 5
      "latitude" "mean" (.coll []) "latitude" "longitude" "mean" none).1
      (by decide),
    (engine_mutation_characterization exampleRegularCube (-10) 10 (-5) 5
      "latitude" "mean" (.coll []) "latitude" "longitude" "mean" none).2.1,
    (engine_mutation_characterization exampleRegularCube (-10) 10 (-5) 5
      "latitude" "mean" (.coll []) "latitude" "longitude" "mean" none).2.2.1,
    (engine_mutation_characterization exampleIrregularCube 0 30 15 100
      "latitude" "mean" (.coll []) "latitude" "longitude" "mean"
      none).2.2.2.1 (by decide),
    (engine_mutation_characterization exampleRegularCube (-10) 10 (-5) 5
      "latitude" "mean" (.coll []) "latitude" "longitude" "mean"
      none).2.2.2.2⟩

lemma getD_map_range {α : Type} (n i : Nat) (f : Nat → α) (d : α)
    (h : i < n) : ((List.range n).map f).getD i d = f i := by
  rw [List.getD_eq_getElem?_getD, List.getElem?_map, List.getElem?_range h]
  rfl

/-- C9: on an irregular grid, `extract_region` keeps the dims, the shape, the
data values and the coordinate arrays of the field untouched; the only change
is the mask, which becomes the pre-existing mask OR-ed cell by cell with the
four per-cell box tests, so out-of-box cells become masked-missing instead of
being removed. -/
theorem extract_region_irregular_shape_and_mask (cube : Cube)
    (slon elon slat elat : ℚ) (h2 : cube.latND = 2) :
    ((extract_region cube slon elon slat elat).2).dims = cube.dims ∧
    ((extract_region cube slon elon slat elat).2).shape = cube.shape ∧
    ((extract_region cube slon elon slat elat).2).data = cube.data ∧
    ((extract_region cube slon elon slat elat).2).latND = cube.latND ∧
    ((extract_region cube slon elon slat elat).2).lats2 = cube.lats2 ∧
    ((extract_region cube slon elon slat elat).2).lons2 = cube.lons2 ∧
    ((extract_region cube slon elon slat elat).2).latPts = cube.latPts ∧
    ((extract_region cube slon elon slat elat).2).lonPts = cube.lonPts ∧
    ((extract_region cube slon elon slat elat).2).regionPts =
      cube.regionPts ∧
    ((extract_region cube slon elon slat elat).2).mask.length =
      cube.data.length ∧
    (∀ i, i < cube.data.length →
      ((extract_region cube slon elon slat elat).2).mask.getD i false =
        (cube.mask.getD i false || decide (cube.lats2.getD i 0 < slat)
          || decide (cube.lats2.getD i 0 > elat)
          || decide (cube.lons2.getD i 0 > slon)
          || decide (cube.lons2.getD i 0 > elon))) := by
  have hne : ¬(cube.latND = 1) := by rw [h2]; decide
  unfold extract_region
  rw [if_neg hne]
  refine ⟨rfl, rfl, rfl, rfl, rfl, rfl, rfl, rfl, rfl, ?_, ?_⟩
  · simp [irregularMask]
  · intro i hi
    show (irregularMask cube slon elon slat elat).getD i false = _
    unfold irregularMask
    rw [getD_map_range _ _ _ _ hi]
    simp [lonMaskTest, Bool.or_assoc]

/-- C9 witness: the irregular extraction on a concrete cube, with the mask
equation checked at a concrete cell. -/
theorem extract_region_irregular_shape_and_mask_w :
    ((extract_region exampleIrregularCube 0 30 15 100).2).data =
      exampleIrregularCube.data ∧
    ((extract_region exampleIrregularCube 0 30 15 100).2).lats2 =
      exampleIrregularCube.lats2 ∧
    ((extract_region exampleIrregularCube 0 30 15 100).2).mask.getD 0 false =
      (exampleIrregularCube.mask.getD 0 false
        || decide (exampleIrregularCube.lats2.getD 0 0 < 15)
        || decide (exampleIrregularCube.lats2.getD 0 0 > 100)
        || decide (exampleIrregularCube.lons2.getD 0 0 > 0)
        || decide (exampleIrregularCube.lons2.getD 0 0 > 30)) :=
  ⟨(extract_region_irregular_shape_and_mask exampleIrregularCube 0 30 15 100
      (by decide)).2.2.1,
    (extract_region_irregular_shape_and_mask exampleIrregularCube 0 30 15 100
      (by decide)).2.2.2.2.1,
    (extract_region_irregular_shape_and_mask exampleIrregularCube 0 30 15 100
      (by decide)).2.2.2.2.2.2.2.2.2.2 0 (by decide)⟩

/-- C4: in the irregular path of `extract_region`, the longitude
contribution to the exclusion mask tests the cell longitude against both box
bounds with a greater-than comparison: an unmasked cell whose latitude lies
inside the box is masked iff its longitude exceeds the lower bound or exceeds
the upper bound, so a cell is never masked for having a longitude below the
lower bound. -/
theorem irregular_lon_mask_upper_only (cube : Cube)
    (slon elon slat elat : ℚ) (i : Nat) (h2 : cube.latND = 2)
    (hi : i < cube.data.length) (hla : slat ≤ cube.lats2.getD i 0)
    (hlb : cube.lats2.getD i 0 ≤ elat)
    (hm : cube.mask.getD i false = false) :
    (((extract_region cube slon elon slat elat).2).mask.getD i false =
      lonMaskTest slon elon (cube.lons2.getD i 0)) ∧
    (lonMaskTest slon elon (cube.lons2.getD i 0) = true ↔
      (slon < cube.lons2.getD i 0 ∨ elon < cube.lons2.getD i 0)) ∧
    (cube.lons2.getD i 0 ≤ slon → cube.lons2.getD i 0 ≤ elon →
      ((extract_region cube slon elon slat elat).2).mask.getD i false =
        false) := by
  have hne : ¬(cube.latND = 1) := by rw [h2]; decide
  have hmask :
      ((extract_region cube slon elon slat elat).2).mask.getD i false =
        lonMaskTest slon elon (cube.lons2.getD i 0) := by
    unfold extract_region
    rw [if_neg hne]
    show (irregularMask cube slon elon slat elat).getD i false = _
    unfold irregularMask
    rw [getD_map_range _ _ _ _ hi]
    rw [hm, decide_eq_false (not_lt.mpr hla), decide_eq_false (not_lt.mpr hlb)]
    rfl
  refine ⟨hmask, ?_, ?_⟩
  · unfold lonMaskTest
    simp [gt_iff_lt]
  · intro hs he
    rw [hmask]
    unfold lonMaskTest
    rw [decide_eq_false (not_lt.mpr hs), decide_eq_false (not_lt.mpr he)]
    rfl

/-- C4 witness: a concrete in-box unmasked cell whose longitude is below
both bounds is not masked; the mask equals the longitude test there. -/
theorem irregular_lon_mask_upper_only_w :
    (((extract_region exampleIrregularCube 10 40 5 100).2).mask.getD 0
        false =
      lonMaskTest 10 40 (exampleIrregularCube.lons2.getD 0 0)) ∧
    (lonMaskTest 10 40 (exampleIrregularCube.lons2.getD 0 0) = true ↔
      ((10 : ℚ) < exampleIrregularCube.lons2.getD 0 0 ∨
        (40 : ℚ) < exampleIrregularCube.lons2.getD 0 0)) ∧
    ((exampleIrregularCube.lons2.getD 0 0 ≤ 10) →
      (exampleIrregularCube.lons2.getD 0 0 ≤ 40) →
      ((extract_region exampleIrregularCube 10 40 5 100).2).mask.getD 0
          false = false) :=
  irregular_lon_mask_upper_only exampleIrregularCube 10 40 5 100 0
    (by decide) (by decide) (by decide) (by decide) (by decide)

lemma getD_map {α β : Type} (f : α → β) (l : List α) (i : Nat) (d : β)
    (d2 : α) (h : i < l.length) : (l.map f).getD i d = f (l.getD i d2) := by
  rw [List.getD_eq_getElem?_getD, List.getElem?_map,
    List.getElem?_eq_getElem h, List.getD_eq_getElem?_getD,
    List.getElem?_eq_getElem h]
  rfl

lemma wrapLon_zero_mem (q : ℚ) : 0 ≤ wrapLon 0 q ∧ wrapLon 0 q < 360 := by
  unfold wrapLon
  have h1 := Int.fract_nonneg ((q - 0) / 360)
  have h2 := Int.fract_lt_one ((q - 0) / 360)
  constructor
  · have := mul_nonneg (show (0 : ℚ) ≤ 360 by norm_num) h1
    linarith
  · have := (mul_lt_mul_left (show (0 : ℚ) < 360 by norm_num)).mpr h2
    rw [mul_one] at this
    linarith

lemma mem_intersectLon_zero (c : Cube) (p : ℚ)
    (hp : p ∈ (intersectLon c 0 360).lonPts) : ∃ q, p = wrapLon 0 q := by
  unfold intersectLon at hp
  dsimp only [] at hp
  obtain ⟨i, hi, rfl⟩ := List.mem_map.mp hp
  have hlt : i < c.lonPts.length :=
    List.mem_range.mp (List.mem_of_mem_filter hi)
  refine ⟨c.lonPts.getD i 0, ?_⟩
  rw [getD_map (wrapLon 0) c.lonPts i 0 0 hlt]

/-- C7: on a regular grid, every longitude point of the cube returned by
`extract_region` lies in the half-open interval from 0 to 360, for every
requested box, including boxes given with negative longitudes: the final
re-intersection with the window from 0 to 360 wraps every point into that
interval. -/
theorem extract_region_lon_in_0_360 (cube : Cube) (a b d e : ℚ)
    (h1 : cube.latND = 1) :
    ((extract_region cube a b d e).2).lonPts.all
      (fun p => decide (0 ≤ p) && decide (p < 360)) = true ∧
    ∀ p ∈ ((extract_region cube a b d e).2).lonPts, 0 ≤ p ∧ p < 360 := by
  have hall : ∀ p ∈ ((extract_region cube a b d e).2).lonPts,
      0 ≤ p ∧ p < 360 := by
    intro p hp
    unfold extract_region at hp
    rw [if_pos h1] at hp
    dsimp only [] at hp
    obtain ⟨q, rfl⟩ := mem_intersectLon_zero _ p hp
    exact wrapLon_zero_mem q
  refine ⟨?_, hall⟩
  rw [List.all_eq_true]
  intro p hp
  have := hall p hp
  simp [this.1, this.2]

/-- C7 witness: the normalization guarantee instantiated at a concrete
regular cube and a box with negative longitudes. -/
theorem extract_region_lon_in_0_360_w :
    ((extract_region exampleRegularCube (-10) 10 (-5) 5).2).lonPts.all
      (fun p => decide (0 ≤ p) && decide (p < 360)) = true :=
  (extract_region_lon_in_0_360 exampleRegularCube (-10) 10 (-5) 5
    (by decide)).1

/-- C8 counterexample: an empty request has no absent label, so by the claim
the operation should return the field subset to the (zero) matching
positions; the source instead gets `None` back from the iris extract call
(no position matches the empty constraint) and returns no field at all. -/
theorem extract_named_regions_empty_cex :
    (extract_named_regions exampleRegionCube (.coll [])).2 = .ok none := by
  decide

/-- C8 (amended): `extract_named_regions` raises the `ValueError` naming the
offending labels and the available set iff at least one requested label is
absent from the `region` coordinate; otherwise, when at least one position
matches, it returns the field subset to exactly the matching positions in
their original relative order: the `region` coordinate keeps exactly the
matching labels in order, the extent of the region axis shrinks to the
number of matching positions, and the data and mask keep exactly the cells
whose region-axis index carries a requested label, in row-major order; a
request matching no position (in particular the empty request) yields no
field (`None`). -/
theorem extract_named_regions_contract (cube : Cube) (rg : RegionsArg)
    (l : List String) (hn : normalizeRegions rg = .ok l) :
    ((∃ r ∈ l, r ∉ cube.regionPts) →
      ∃ inv avail,
        (extract_named_regions cube rg).2 =
          .error (.unknownRegions inv avail) ∧
        (∀ r, r ∈ inv ↔ r ∈ l ∧ r ∉ cube.regionPts) ∧
        (∀ r, r ∈ avail ↔ r ∈ cube.regionPts)) ∧
    ((∀ r ∈ l, r ∈ cube.regionPts) →
      ((cube.regionPts.filter (fun r => decide (r ∈ l)) = [] →
          (extract_named_regions cube rg).2 = .ok none) ∧
        (cube.regionPts.filter (fun r => decide (r ∈ l)) ≠ [] →
          ∃ sub, (extract_named_regions cube rg).2 = .ok (some sub) ∧
            sub.regionPts =
              cube.regionPts.filter (fun r => decide (r ∈ l)) ∧
            sub.dims = cube.dims ∧
            sub.shape = cube.shape.set (cube.dims.indexOf "region")
              ((List.range
                  (cube.shape.getD (cube.dims.indexOf "region") 0)).filter
                (fun i => decide (cube.regionPts.getD i "" ∈ l))).length ∧
            sub.data = ((allIdx cube.shape).filter
                (fun ix => decide (cube.regionPts.getD
                  (ix.getD (cube.dims.indexOf "region") 0) "" ∈ l))).map
              (fun ix => cube.data.getD (flattenIdx cube.shape ix) 0) ∧
            sub.mask = ((allIdx cube.shape).filter
                (fun ix => decide (cube.regionPts.getD
                  (ix.getD (cube.dims.indexOf "region") 0) "" ∈ l))).map
              (fun ix =>
                cube.mask.getD (flattenIdx cube.shape ix) false)))) := by
  unfold extract_named_regions
  rw [hn]
  dsimp only []
  constructor
  · rintro ⟨r0, hr0, hr0n⟩
    have hinv :
        ¬((l.filter (fun r => decide (r ∉ cube.regionPts))).dedup = []) := by
      intro hemp
      rw [List.dedup_eq_nil] at hemp
      have := List.filter_eq_nil_iff.mp hemp r0 hr0
      simp [hr0n] at this
    rw [if_pos hinv]
    refine ⟨_, _, rfl, ?_, ?_⟩
    · intro r
      simp [List.mem_dedup, List.mem_filter]
    · intro r
      simp [List.mem_dedup]
  · intro hsub
    have hinv : (l.filter (fun r => decide (r ∉ cube.regionPts))).dedup
        = [] := by
      rw [List.dedup_eq_nil, List.filter_eq_nil_iff]
      intro a ha
      simp [hsub a ha]
    rw [if_neg (fun hcon => hcon hinv)]
    constructor
    · intro hm
      rw [if_pos hm]
    · intro hm
      rw [if_neg hm]
      exact ⟨_, rfl, rfl, rfl, rfl, rfl, rfl⟩

/-- C8 witness: the error at an absent label (naming it and the available
set), and the order-preserving subset at a valid two-label request, on a
concrete cube. -/
theorem extract_named_regions_contract_w :
    (∃ inv avail,
      (extract_named_regions exampleRegionCube (.coll ["Sahara"])).2 =
        .error (.unknownRegions inv avail) ∧
      (∀ r, r ∈ inv ↔ r ∈ ["Sahara"] ∧ r ∉ exampleRegionCube.regionPts) ∧
      (∀ r, r ∈ avail ↔ r ∈ exampleRegionCube.regionPts)) ∧
    (∃ sub,
      (extract_named_regions exampleRegionCube
          (.coll ["Nile", "Amazon"])).2 = .ok (some sub) ∧
      sub.regionPts = exampleRegionCube.regionPts.filter
        (fun r => decide (r ∈ ["Nile", "Amazon"])) ∧
      sub.dims = exampleRegionCube.dims ∧
      sub.shape = exampleRegionCube.shape.set
        (exampleRegionCube.dims.indexOf "region")
        ((List.range (exampleRegionCube.shape.getD
            (exampleRegionCube.dims.indexOf "region") 0)).filter
          (fun i => decide (exampleRegionCube.regionPts.getD i ""
            ∈ ["Nile", "Amazon"]))).length ∧
      sub.data = ((allIdx exampleRegionCube.shape).filter
          (fun ix => decide (exampleRegionCube.regionPts.getD
            (ix.getD (exampleRegionCube.dims.indexOf "region") 0) ""
            ∈ ["Nile", "Amazon"]))).map
        (fun ix => exampleRegionCube.data.getD
          (flattenIdx exampleRegionCube.shape ix) 0) ∧
      sub.mask = ((allIdx exampleRegionCube.shape).filter
          (fun ix => decide (exampleRegionCube.regionPts.getD
            (ix.getD (exampleRegionCube.dims.indexOf "region") 0) ""
            ∈ ["Nile", "Amazon"]))).map
        (fun ix => exampleRegionCube.mask.getD
          (flattenIdx exampleRegionCube.shape ix) false)) :=
  ⟨(extract_named_regions_contract exampleRegionCube (.coll ["Sahara"])
      ["Sahara"] rfl).1 (by decide),
    ((extract_named_regions_contract exampleRegionCube
      (.coll ["Nile", "Amazon"]) ["Nile", "Amazon"] rfl).2 (by decide)).2
      (by decide)⟩
